import Mathlib

/-!
Verification of the lighthouse air-quality service core: the 24h linear
forecaster (`flask_api/predictor.py`) and the location-keyed TTL cache
(`flask_api/cache.py`), shallowly embedded over ℚ.

Numeric values (timestamps in seconds, NO₂ column densities, ppb) are
modelled as rationals; floating-point rounding is not modelled.
Python's `round(x, n)` uses banker's rounding at exact ties; we use
Mathlib's `round` (half-up), which agrees everywhere except exact ties,
and no statement below evaluates at a tie.
-/

namespace Lighthouse

/-- `round(x, n)` of Python, over ℚ (ties excepted, see module comment). -/
def roundTo (n : ℕ) (x : ℚ) : ℚ := (round (x * 10 ^ n) : ℚ) / 10 ^ n

/-- Python `int()` on a rational: truncation toward zero. -/
def pyInt (q : ℚ) : ℤ := if 0 ≤ q then ⌊q⌋ else -⌊-q⌋

/-- `np.max` over a nonempty list (0 on the empty list, which `np.max` rejects). -/
def npMax : List ℚ → ℚ
  | [] => 0
  | x :: xs => xs.foldl max x

/-- `np.mean`: sum divided by length (0 on the empty list). -/
def npMean (l : List ℚ) : ℚ := l.sum / l.length

/-- The time series returned by `load_tempo_timeseries`: parallel lists of
timestamps (seconds since epoch) and NO₂ values (molecules/cm²). -/
structure Timeseries where
  timestamps : List ℚ
  no2Values : List ℚ
deriving Repr, DecidableEq

/-- `load_tempo_timeseries`, with the file scanning abstracted away: the
input is the list of successfully extracted `(file time, NO₂ value)`
observations (src/flask_api/predictor.py lines 64-97). Fewer than 3 usable
observations yield `none`. -/
def load_tempo_timeseries (obs : List (ℚ × ℚ)) : Option Timeseries :=
  if obs.length < 3 then none
  else some ⟨obs.map Prod.fst, obs.map Prod.snd⟩

/-- Slope of `sklearn.linear_model.LinearRegression` (ordinary least squares
with intercept) on the points `pts`. On a singular design matrix (all x
equal) sklearn's `lstsq` returns the minimum-norm solution: coefficient 0. -/
def fitSlope (pts : List (ℚ × ℚ)) : ℚ :=
  let n : ℚ := pts.length
  let sx := (pts.map Prod.fst).sum
  let sy := (pts.map Prod.snd).sum
  let sxx := (pts.map (fun p => p.1 * p.1)).sum
  let sxy := (pts.map (fun p => p.1 * p.2)).sum
  if n * sxx - sx * sx = 0 then 0 else (n * sxy - sx * sy) / (n * sxx - sx * sx)

/-- Intercept of the fitted line: `ȳ − slope · x̄`. -/
def fitIntercept (pts : List (ℚ × ℚ)) : ℚ :=
  if pts.length = 0 then 0
  else ((pts.map Prod.snd).sum - fitSlope pts * (pts.map Prod.fst).sum) / pts.length

/-- `model.predict([[x]])`: evaluate the fitted line at `x`. -/
def predictAt (pts : List (ℚ × ℚ)) (x : ℚ) : ℚ :=
  fitIntercept pts + fitSlope pts * x

/-- `hours_elapsed`: hours since the first observation as listed
(src/flask_api/predictor.py lines 126-127). -/
def hoursElapsed (timestamps : List ℚ) : List ℚ :=
  timestamps.map (fun t => (t - timestamps.headD 0) / 3600)

/-- The regression training points `(hours_elapsed i, no2_values i)`. -/
def trainPoints (ts : Timeseries) : List (ℚ × ℚ) :=
  (hoursElapsed ts.timestamps).zip ts.no2Values

/-- The raw 24h projection before clamping: the fitted line evaluated at
`(timestamps[-1] - t0)/3600 + 24` (src/flask_api/predictor.py lines 138-144). -/
def rawProjection (ts : Timeseries) : ℚ :=
  predictAt (trainPoints ts)
    ((ts.timestamps.getLastD 0 - ts.timestamps.headD 0) / 3600 + 24)

/-- The clamp of lines 146-152: cap at `1.2 × max` when above `10 × max`,
otherwise floor at the mean when negative, otherwise unchanged. -/
def clampProjection (ts : Timeseries) (raw : ℚ) : ℚ :=
  if raw > npMax ts.no2Values * 10 then npMax ts.no2Values * 1.2
  else if raw < 0 then npMean ts.no2Values
  else raw

/-- R² of the fit against the training data (lines 161-164):
`1 − SS_res/SS_tot`, with R² = 0 when `SS_tot ≤ 0`. -/
def rSquared (ts : Timeseries) : ℚ :=
  let pts := trainPoints ts
  let ys := pts.map Prod.snd
  let ssRes := (pts.map (fun p => (p.2 - predictAt pts p.1) ^ 2)).sum
  let ssTot := (ys.map (fun y => (y - npMean ys) ^ 2)).sum
  if ssTot > 0 then 1 - ssRes / ssTot else 0

/-- Confidence label of line 166. -/
def confidenceLabel (r2 : ℚ) : String :=
  if r2 > 0.7 then "high" else if r2 > 0.4 then "medium" else "low"

/-- The AQI information returned by `_calculate_aqi_from_no2`. -/
structure AqiInfo where
  aqi : ℤ
  category : String
  advice : String
  ppb : ℚ
deriving Repr, DecidableEq

/-- `_get_aqi_category` (src/flask_api/predictor.py lines 230-244). -/
def get_aqi_category (aqi : ℤ) : String :=
  if aqi ≤ 50 then "Good"
  else if aqi ≤ 100 then "Moderate"
  else if aqi ≤ 150 then "Unhealthy for Sensitive Groups"
  else if aqi ≤ 200 then "Unhealthy"
  else if aqi ≤ 300 then "Very Unhealthy"
  else "Hazardous"

/-- `_get_health_advice` (src/flask_api/predictor.py lines 246-266). -/
def get_health_advice (aqi : ℤ) : String :=
  if aqi ≤ 50 then "Excellent air quality expected — ideal conditions for outdoor activities tomorrow."
  else if aqi ≤ 100 then "Moderate air quality expected — outdoor activities safe for everyone tomorrow."
  else if aqi ≤ 150 then "Limit prolonged outdoor exposure during afternoon hours — sensitive groups should plan accordingly."
  else if aqi ≤ 200 then "Reduce outdoor activities tomorrow — everyone should limit prolonged exertion."
  else if aqi ≤ 300 then "Avoid outdoor activities tomorrow — stay indoors when possible."
  else "Health alert: Remain indoors tomorrow. Air quality extremely dangerous."

/-- The EPA NO₂ breakpoint table of lines 199-206:
`(c_low, c_high, aqi_low, aqi_high)` in ppb. -/
def breakpoints : List (ℚ × ℚ × ℚ × ℚ) :=
  [(0, 53, 0, 50), (54, 100, 51, 100), (101, 360, 101, 150),
   (361, 649, 151, 200), (650, 1249, 201, 300), (1250, 2049, 301, 500)]

/-- The first breakpoint row with `c_low ≤ ppb ≤ c_high` (lines 209-210). -/
def findBreakpoint (ppb : ℚ) : List (ℚ × ℚ × ℚ × ℚ) → Option (ℚ × ℚ × ℚ × ℚ)
  | [] => none
  | b :: rest => if b.1 ≤ ppb ∧ ppb ≤ b.2.1 then some b else findBreakpoint ppb rest

/-- `_calculate_aqi_from_no2` (src/flask_api/predictor.py lines 180-228):
convert molecules/cm² to ppb, interpolate within the matching breakpoint
row, or fall through to AQI 500 "Hazardous". -/
def calculate_aqi_from_no2 (no2 : ℚ) : AqiInfo :=
  let ppb := no2 / 10 ^ 15 * 20
  match findBreakpoint ppb breakpoints with
  | some (cLow, cHigh, aqiLow, aqiHigh) =>
    let aqi := (aqiHigh - aqiLow) / (cHigh - cLow) * (ppb - cLow) + aqiLow
    { aqi := pyInt aqi, category := get_aqi_category (pyInt aqi),
      advice := get_health_advice (pyInt aqi), ppb := roundTo 2 ppb }
  | none =>
    { aqi := 500, category := "Hazardous",
      advice := "Health alert: Remain indoors. Air quality extremely dangerous.",
      ppb := roundTo 2 ppb }

/-- The prediction dictionary returned by `predict_no2_24h`. -/
structure Prediction where
  predicted_no2 : ℚ
  predicted_aqi : ℤ
  category : String
  advice : String
  prediction_time : ℚ
  confidence : String
  r_squared : ℚ
  data_points_used : ℕ
deriving Repr, DecidableEq

/-- `predict_no2_24h` (src/flask_api/predictor.py lines 99-178): `none` for
fewer than 3 timestamps, otherwise an OLS fit over hours elapsed since the
first listed observation, evaluated 24 hours past the last listed
observation, clamped, and packaged with AQI and confidence. -/
def predict_no2_24h (ts : Timeseries) : Option Prediction :=
  if ts.timestamps.length < 3 then none
  else
    let predicted := clampProjection ts (rawProjection ts)
    let info := calculate_aqi_from_no2 predicted
    let r2 := rSquared ts
    some { predicted_no2 := predicted
           predicted_aqi := info.aqi
           category := info.category
           advice := info.advice
           prediction_time := ts.timestamps.getLastD 0 + 86400
           confidence := confidenceLabel r2
           r_squared := roundTo 3 r2
           data_points_used := ts.timestamps.length }

/-! ### The location-keyed TTL cache (`flask_api/cache.py`) -/

/-- The canonical content of a cache key before hashing: `_make_key` builds
`json.dumps({lat: round(lat,3), lon: round(lon,3), **kwargs}, sort_keys=True)`
and hashes it with md5; equal canonical data yields equal hashes, so the key
is modelled by the canonical data itself. Parameter values are modelled by
their serialized (string) form. -/
structure CacheKey where
  latR : ℚ
  lonR : ℚ
  params : List (String × String)
deriving Repr, DecidableEq

/-- Lexicographic comparison of `(name, value)` pairs: the canonical order
`json.dumps(..., sort_keys=True)` induces (kwargs names are distinct, so the
value tiebreak never fires on real inputs). -/
def pairLe (a b : String × String) : Prop :=
  a.1 < b.1 ∨ (a.1 = b.1 ∧ a.2 ≤ b.2)

instance : DecidableRel pairLe := fun a b =>
  inferInstanceAs (Decidable (a.1 < b.1 ∨ (a.1 = b.1 ∧ a.2 ≤ b.2)))

instance : IsTrans (String × String) pairLe where
  trans a b c hab hbc := by
    rcases hab with h1 | ⟨h1, h2⟩ <;> rcases hbc with h3 | ⟨h3, h4⟩
    · exact Or.inl (lt_trans h1 h3)
    · exact Or.inl (h3 ▸ h1)
    · exact Or.inl (h1 ▸ h3)
    · exact Or.inr ⟨h1.trans h3, h2.trans h4⟩

instance : IsAntisymm (String × String) pairLe where
  antisymm a b hab hba := by
    rcases hab with h1 | ⟨h1, h2⟩ <;> rcases hba with h3 | ⟨h3, h4⟩
    · exact absurd h3 (lt_asymm h1)
    · exact absurd h1 (h3 ▸ lt_irrefl _)
    · exact absurd h3 (h1 ▸ lt_irrefl _)
    · exact Prod.ext h1 (le_antisymm h2 h4)

instance : IsTotal (String × String) pairLe where
  total a b := by
    rcases lt_trichotomy a.1 b.1 with h | h | h
    · exact Or.inl (Or.inl h)
    · rcases le_total a.2 b.2 with h2 | h2
      · exact Or.inl (Or.inr ⟨h, h2⟩)
      · exact Or.inr (Or.inr ⟨h.symm, h2⟩)
    · exact Or.inr (Or.inl h)

/-- `LocationCache._make_key` (src/flask_api/cache.py lines 31-57): round
the coordinates to 3 decimals and canonicalize the keyword parameters by
sorting them. -/
def make_key (lat lon : ℚ) (ps : List (String × String)) : CacheKey :=
  { latR := roundTo 3 lat, lonR := roundTo 3 lon,
    params := List.insertionSort pairLe ps }

/-- The state of a `cachetools.TTLCache`: entries as `(key, value,
insertion time)` in insertion order, oldest first, with capacity `maxsize`
and expiry window `ttl` (seconds). -/
structure TTLCacheState (K V : Type) where
  maxsize : ℕ
  ttl : ℚ
  entries : List (K × V × ℚ)
deriving Repr, DecidableEq

variable {K V : Type} [DecidableEq K]

/-- A cache with no entries. -/
def TTLCacheState.empty (maxsize : ℕ) (ttl : ℚ) : TTLCacheState K V :=
  ⟨maxsize, ttl, []⟩

/-- `TTLCache.__getitem__` via `Cache.get`: an entry is visible iff its
expiry time `insertion + ttl` is still in the future (strictly). -/
def getEntry (c : TTLCacheState K V) (k : K) (now : ℚ) : Option V :=
  (c.entries.find? (fun e => decide (e.1 = k))).bind
    (fun e => if now < e.2.2 + c.ttl then some e.2.1 else none)

/-- `TTLCache.expire`: drop every entry whose expiry time has passed. -/
def expireEntries (c : TTLCacheState K V) (now : ℚ) : TTLCacheState K V :=
  { c with entries := c.entries.filter (fun e => decide (now < e.2.2 + c.ttl)) }

/-- `TTLCache.__setitem__`: expire, then either overwrite an existing key
(moving it to the back with a fresh clock) or, after evicting
oldest-inserted entries while at capacity, append the new entry. -/
def setEntry (c : TTLCacheState K V) (k : K) (v : V) (now : ℚ) : TTLCacheState K V :=
  let c1 := expireEntries c now
  if c1.entries.any (fun e => decide (e.1 = k)) then
    { c1 with entries := c1.entries.filter (fun e => decide (e.1 ≠ k)) ++ [(k, v, now)] }
  else
    { c1 with entries := c1.entries.drop (c1.entries.length + 1 - c1.maxsize) ++ [(k, v, now)] }

/-- `LocationCache.get` (src/flask_api/cache.py lines 59-62). -/
def LocationCache.get (c : TTLCacheState CacheKey V) (lat lon : ℚ)
    (ps : List (String × String)) (now : ℚ) : Option V :=
  getEntry c (make_key lat lon ps) now

/-- `LocationCache.set` (src/flask_api/cache.py lines 64-67). -/
def LocationCache.set (c : TTLCacheState CacheKey V) (lat lon : ℚ) (v : V)
    (ps : List (String × String)) (now : ℚ) : TTLCacheState CacheKey V :=
  setEntry c (make_key lat lon ps) v now

/-- One call of a function wrapped by the `cached` decorator
(src/flask_api/cache.py lines 99-117): serve a cache hit, otherwise invoke
the fetch and store its result only when it is non-null. Returns the
result, the cache state afterwards, and whether the fetch was invoked. -/
def cachedCall (fetch : ℚ → ℚ → List (String × String) → Option V)
    (st : TTLCacheState CacheKey V) (lat lon : ℚ) (ps : List (String × String))
    (now : ℚ) : Option V × TTLCacheState CacheKey V × Bool :=
  match LocationCache.get st lat lon ps now with
  | some v => (some v, st, false)
  | none =>
    match fetch lat lon ps with
    | some v => (some v, LocationCache.set st lat lon v ps now, true)
    | none => (none, st, true)

/-- Fold a list of `(key, value, time)` insertions over `setEntry`. -/
def applySets (c : TTLCacheState K V) : List (K × V × ℚ) → TTLCacheState K V
  | [] => c
  | op :: ops => applySets (setEntry c op.1 op.2.1 op.2.2) ops

/-! ### Helper lemmas -/

theorem setEntry_shape (c : TTLCacheState K V) (k : K) (v : V) (now : ℚ) :
    ∃ pre : List (K × V × ℚ), (setEntry c k v now).entries = pre ++ [(k, v, now)] ∧
      (∀ e ∈ pre, e.1 ≠ k) ∧ (setEntry c k v now).ttl = c.ttl ∧
      (setEntry c k v now).maxsize = c.maxsize := by
  unfold setEntry expireEntries
  set es := c.entries.filter (fun e => decide (now < e.2.2 + c.ttl)) with hes
  by_cases hany : es.any (fun e => decide (e.1 = k))
  · refine ⟨es.filter (fun e => decide (e.1 ≠ k)), by simp [hany], ?_, by simp [hany], by simp [hany]⟩
    intro e he
    have := List.of_mem_filter he
    simpa using this
  · refine ⟨es.drop (es.length + 1 - c.maxsize), by simp [hany], ?_, by simp [hany], by simp [hany]⟩
    intro e he
    have hmem : e ∈ es := List.mem_of_mem_drop he
    have := List.any_eq_false.mp (Bool.eq_false_iff.mpr hany) e hmem
    simpa using this

theorem getEntry_setEntry_same (c : TTLCacheState K V) (k : K) (v : V) (T ε : ℚ) :
    getEntry (setEntry c k v T) k (T + ε) = if ε < c.ttl then some v else none := by
  obtain ⟨pre, he, hpre, httl, -⟩ := setEntry_shape c k v T
  rw [getEntry, he, httl, List.find?_append]
  have h1 : pre.find? (fun e => decide (e.1 = k)) = none :=
    List.find?_eq_none.mpr (fun x hx => by simpa using hpre x hx)
  have h2 : List.find? (fun e => decide (e.1 = k)) [(k, v, T)] = some (k, v, T) := by
    simp [List.find?]
  rw [h1, h2]
  have hiff : T + ε < T + c.ttl ↔ ε < c.ttl := by constructor <;> intro <;> linarith
  simp [hiff]

theorem getEntry_none_mono (c : TTLCacheState K V) (k : K) {now now' : ℚ}
    (h : getEntry c k now = none) (hle : now ≤ now') : getEntry c k now' = none := by
  unfold getEntry at h ⊢
  cases hf : c.entries.find? (fun e => decide (e.1 = k)) with
  | none => rfl
  | some e =>
    rw [hf] at h
    simp only [Option.some_bind] at h ⊢
    rw [if_neg]
    intro hlt
    rw [if_pos (lt_of_le_of_lt hle hlt)] at h
    exact Option.some_ne_none _ h

/-! ### Claims -/

/-- C8: for every input series of length 0, 1 or 2, the forecaster reports
the absent result: `load_tempo_timeseries` returns `none` below 3 usable
observations, and `predict_no2_24h` returns `none` below 3 observations. -/
theorem c8_short_series_absent (obs : List (ℚ × ℚ)) (ts : Timeseries)
    (h1 : obs.length < 3) (h2 : ts.timestamps.length < 3) :
    load_tempo_timeseries obs = none ∧ predict_no2_24h ts = none := by
  constructor
  · simp [load_tempo_timeseries, h1]
  · simp [predict_no2_24h, h2]

theorem c8_short_series_absent_witness :
    ([((0 : ℚ), (5 : ℚ)), (1, 6)].length < 3 ∧
      (Timeseries.mk [0, 1] [5, 6]).timestamps.length < 3) ∧
    load_tempo_timeseries [((0 : ℚ), (5 : ℚ)), (1, 6)] = none ∧
      predict_no2_24h ⟨[0, 1], [5, 6]⟩ = none :=
  ⟨⟨by decide, by decide⟩, c8_short_series_absent _ _ (by decide) (by decide)⟩

/-- C2: for every series of at least 3 observations, the reported
prediction is the raw 24h projection clamped exactly as the claim states:
capped at `1.2 × max` when above `10 × max`, floored at the mean when
negative, and unchanged otherwise. -/
theorem c2_clamp_rule (ts : Timeseries) (h : 3 ≤ ts.timestamps.length) :
    (predict_no2_24h ts).map Prediction.predicted_no2 =
      some (if rawProjection ts > npMax ts.no2Values * 10 then npMax ts.no2Values * 1.2
            else if rawProjection ts < 0 then npMean ts.no2Values
            else rawProjection ts) := by
  rw [predict_no2_24h, if_neg (by omega)]
  rfl

theorem c2_clamp_rule_witness :
    3 ≤ (Timeseries.mk [0, 3600, 7200] [10, 11, 12]).timestamps.length ∧
    (predict_no2_24h ⟨[0, 3600, 7200], [10, 11, 12]⟩).map Prediction.predicted_no2 =
      some (if rawProjection ⟨[0, 3600, 7200], [10, 11, 12]⟩ >
              npMax (Timeseries.mk [0, 3600, 7200] [10, 11, 12]).no2Values * 10 then
              npMax (Timeseries.mk [0, 3600, 7200] [10, 11, 12]).no2Values * 1.2
            else if rawProjection ⟨[0, 3600, 7200], [10, 11, 12]⟩ < 0 then
              npMean (Timeseries.mk [0, 3600, 7200] [10, 11, 12]).no2Values
            else rawProjection ⟨[0, 3600, 7200], [10, 11, 12]⟩) :=
  ⟨by decide, c2_clamp_rule _ (by decide)⟩

/-- C6: a value stored by `set` at time `T` is served by `get` for the same
`(lat, lon, params)` exactly while the elapsed time is less than the
configured `ttl`, and is absent at or after `T + ttl`. -/
theorem c6_ttl_visibility {V : Type} (c : TTLCacheState CacheKey V) (lat lon : ℚ)
    (ps : List (String × String)) (v : V) (T ε : ℚ) :
    LocationCache.get (LocationCache.set c lat lon v ps T) lat lon ps (T + ε) =
      if ε < c.ttl then some v else none :=
  getEntry_setEntry_same c (make_key lat lon ps) v T ε

/-- C4: a fetch wrapped by the `cached` decorator never caches a null
result: when the fetch returns `none` on a cache miss, the call returns
`none` with the cache state unchanged and the fetch invoked, and any later
call again invokes the fetch instead of serving a cached null. -/
theorem c4_no_caching_of_null {V : Type}
    (fetch : ℚ → ℚ → List (String × String) → Option V)
    (st : TTLCacheState CacheKey V) (lat lon : ℚ) (ps : List (String × String))
    (now now' : ℚ) (hf : fetch lat lon ps = none)
    (hmiss : LocationCache.get st lat lon ps now = none) (hle : now ≤ now') :
    cachedCall fetch st lat lon ps now = (none, st, true) ∧
      (cachedCall fetch st lat lon ps now').2.2 = true := by
  have hmiss' : LocationCache.get st lat lon ps now' = none :=
    getEntry_none_mono st (make_key lat lon ps) hmiss hle
  constructor
  · rw [cachedCall, hmiss, hf]
  · rw [cachedCall, hmiss', hf]

theorem c4_no_caching_of_null_witness :
    ((fun (_ _ : ℚ) (_ : List (String × String)) => (none : Option ℕ)) 1 2 [] = none ∧
      LocationCache.get (TTLCacheState.empty 10 60 : TTLCacheState CacheKey ℕ) 1 2 [] 0 = none ∧
      (0 : ℚ) ≤ 5) ∧
    cachedCall (fun _ _ _ => (none : Option ℕ)) (TTLCacheState.empty 10 60) 1 2 [] 0 =
        (none, TTLCacheState.empty 10 60, true) ∧
      (cachedCall (fun _ _ _ => (none : Option ℕ)) (TTLCacheState.empty 10 60) 1 2 [] 5).2.2 = true :=
  ⟨⟨rfl, rfl, by norm_num⟩,
    c4_no_caching_of_null _ _ 1 2 [] 0 5 rfl rfl (by norm_num)⟩

/-- C5: `_make_key` is invariant under reordering of the keyword parameters
and under replacing the coordinates by any coordinates with the same
3-decimal rounding. -/
theorem c5_make_key_invariance (lat lon lat' lon' : ℚ) (ps ps' : List (String × String))
    (hp : ps.Perm ps') (hlat : roundTo 3 lat = roundTo 3 lat')
    (hlon : roundTo 3 lon = roundTo 3 lon') :
    make_key lat lon ps = make_key lat' lon' ps' := by
  unfold make_key
  have hsort : List.insertionSort pairLe ps = List.insertionSort pairLe ps' :=
    List.eq_of_perm_of_sorted
      (((List.perm_insertionSort pairLe ps).trans hp).trans
        (List.perm_insertionSort pairLe ps').symm)
      (List.sorted_insertionSort pairLe ps) (List.sorted_insertionSort pairLe ps')
  rw [hlat, hlon, hsort]

theorem c5_make_key_invariance_witness :
    ([("radius", "25"), ("units", "ppb")].Perm [("units", "ppb"), ("radius", "25")] ∧
      roundTo 3 (407 / 10) = roundTo 3 (407 / 10) ∧ roundTo 3 (-74) = roundTo 3 (-74)) ∧
    make_key (407 / 10) (-74) [("radius", "25"), ("units", "ppb")] =
      make_key (407 / 10) (-74) [("units", "ppb"), ("radius", "25")] :=
  ⟨⟨List.Perm.swap _ _ _, rfl, rfl⟩,
    c5_make_key_invariance _ _ _ _ _ _ (List.Perm.swap _ _ _) rfl rfl⟩

theorem findBreakpoint_gap (p : ℚ)
    (h : 53 < p ∧ p < 54 ∨ 100 < p ∧ p < 101 ∨ 360 < p ∧ p < 361 ∨
      649 < p ∧ p < 650 ∨ 1249 < p ∧ p < 1250) :
    findBreakpoint p breakpoints = none := by
  simp only [breakpoints, findBreakpoint]
  rcases h with ⟨h1, h2⟩ | ⟨h1, h2⟩ | ⟨h1, h2⟩ | ⟨h1, h2⟩ | ⟨h1, h2⟩ <;>
    (iterate 6 rw [if_neg (by rintro ⟨ha, hb⟩; linarith)])

theorem calculate_aqi_gap (no2 : ℚ)
    (h : 53 < no2 / 10 ^ 15 * 20 ∧ no2 / 10 ^ 15 * 20 < 54 ∨
      100 < no2 / 10 ^ 15 * 20 ∧ no2 / 10 ^ 15 * 20 < 101 ∨
      360 < no2 / 10 ^ 15 * 20 ∧ no2 / 10 ^ 15 * 20 < 361 ∨
      649 < no2 / 10 ^ 15 * 20 ∧ no2 / 10 ^ 15 * 20 < 650 ∨
      1249 < no2 / 10 ^ 15 * 20 ∧ no2 / 10 ^ 15 * 20 < 1250) :
    (calculate_aqi_from_no2 no2).aqi = 500 ∧
      (calculate_aqi_from_no2 no2).category = "Hazardous" := by
  have hfb := findBreakpoint_gap _ h
  rw [calculate_aqi_from_no2]
  rw [hfb]
  exact ⟨rfl, rfl⟩

/-- C3: for every concentration whose ppb equivalent falls strictly inside
a gap between consecutive breakpoint rows, `_calculate_aqi_from_no2`
matches no row and returns AQI 500 "Hazardous"; consequently the
concentration-to-AQI conversion is not monotone. -/
theorem c3_gap_hazardous (no2 : ℚ)
    (h : 53 < no2 / 10 ^ 15 * 20 ∧ no2 / 10 ^ 15 * 20 < 54 ∨
      100 < no2 / 10 ^ 15 * 20 ∧ no2 / 10 ^ 15 * 20 < 101 ∨
      360 < no2 / 10 ^ 15 * 20 ∧ no2 / 10 ^ 15 * 20 < 361 ∨
      649 < no2 / 10 ^ 15 * 20 ∧ no2 / 10 ^ 15 * 20 < 650 ∨
      1249 < no2 / 10 ^ 15 * 20 ∧ no2 / 10 ^ 15 * 20 < 1250) :
    ((calculate_aqi_from_no2 no2).aqi = 500 ∧
      (calculate_aqi_from_no2 no2).category = "Hazardous") ∧
    ∃ c1 c2 : ℚ, c1 < c2 ∧ (calculate_aqi_from_no2 c2).aqi < (calculate_aqi_from_no2 c1).aqi := by
  refine ⟨calculate_aqi_gap no2 h, 2675 * 10 ^ 12, 27 * 10 ^ 14, by norm_num, ?_⟩
  have h1 : (calculate_aqi_from_no2 (2675 * 10 ^ 12)).aqi = 500 :=
    (calculate_aqi_gap _ (by norm_num)).1
  have h2 : (calculate_aqi_from_no2 (27 * 10 ^ 14)).aqi = 51 := by
    norm_num [calculate_aqi_from_no2, findBreakpoint, breakpoints, pyInt]
  rw [h1, h2]
  norm_num

theorem c3_gap_hazardous_witness :
    (53 < (2675 * 10 ^ 12 : ℚ) / 10 ^ 15 * 20 ∧ (2675 * 10 ^ 12 : ℚ) / 10 ^ 15 * 20 < 54) ∧
    ((calculate_aqi_from_no2 (2675 * 10 ^ 12)).aqi = 500 ∧
      (calculate_aqi_from_no2 (2675 * 10 ^ 12)).category = "Hazardous") ∧
    ∃ c1 c2 : ℚ, c1 < c2 ∧ (calculate_aqi_from_no2 c2).aqi < (calculate_aqi_from_no2 c1).aqi :=
  ⟨by norm_num, c3_gap_hazardous _ (Or.inl (by norm_num))⟩

theorem le_foldl_max (l : List ℚ) (b : ℚ) : b ≤ l.foldl max b := by
  induction l generalizing b with
  | nil => exact le_refl b
  | cons c cs ih => exact le_trans (le_max_left b c) (ih (max b c))

theorem mem_le_foldl_max (l : List ℚ) : ∀ x ∈ l, ∀ b : ℚ, x ≤ l.foldl max b := by
  induction l with
  | nil => intro x hx; cases hx
  | cons c cs ih =>
    intro x hx b
    rcases List.mem_cons.mp hx with rfl | hx'
    · exact le_trans (le_max_right b x) (le_foldl_max cs _)
    · exact ih x hx' _

theorem le_npMax_of_mem {l : List ℚ} {x : ℚ} (hx : x ∈ l) : x ≤ npMax l := by
  cases l with
  | nil => cases hx
  | cons c cs =>
    rcases List.mem_cons.mp hx with rfl | hx'
    · exact le_foldl_max cs x
    · exact mem_le_foldl_max cs x hx' c

theorem npMean_le_npMax {l : List ℚ} (hne : l ≠ []) : npMean l ≤ npMax l := by
  have hlen : 0 < (l.length : ℚ) := by exact_mod_cast List.length_pos.mpr hne
  have hsum : l.sum ≤ l.length • npMax l :=
    List.sum_le_card_nsmul l _ (fun x hx => le_npMax_of_mem hx)
  rw [npMean, div_le_iff₀ hlen]
  calc l.sum ≤ l.length • npMax l := hsum
    _ = npMax l * l.length := by rw [nsmul_eq_mul]; ring

theorem npMean_nonneg {l : List ℚ} (h0 : ∀ x ∈ l, 0 ≤ x) : 0 ≤ npMean l :=
  div_nonneg (List.sum_nonneg h0) (Nat.cast_nonneg _)

theorem npMax_nonneg {l : List ℚ} (hne : l ≠ []) (h0 : ∀ x ∈ l, 0 ≤ x) : 0 ≤ npMax l := by
  cases l with
  | nil => exact absurd rfl hne
  | cons c cs => exact le_trans (h0 c (List.mem_cons_self c cs)) (le_npMax_of_mem (List.mem_cons_self c cs))

theorem fitSlope_of_fst_zero (pts : List (ℚ × ℚ)) (hz : ∀ p ∈ pts, p.1 = 0) :
    fitSlope pts = 0 := by
  have hsx : (pts.map Prod.fst).sum = 0 :=
    List.sum_eq_zero (fun x hx => by
      obtain ⟨p, hp, rfl⟩ := List.mem_map.mp hx; exact hz p hp)
  have hsxx : (pts.map (fun p => p.1 * p.1)).sum = 0 :=
    List.sum_eq_zero (fun x hx => by
      obtain ⟨p, hp, rfl⟩ := List.mem_map.mp hx; rw [hz p hp]; ring)
  rw [fitSlope]
  simp [hsx, hsxx]

theorem fitIntercept_of_fst_zero (pts : List (ℚ × ℚ)) (hz : ∀ p ∈ pts, p.1 = 0)
    (hne : pts ≠ []) : fitIntercept pts = (pts.map Prod.snd).sum / pts.length := by
  have h0 := fitSlope_of_fst_zero pts hz
  have hne' : pts.length ≠ 0 := fun h => hne (List.length_eq_zero.mp h)
  simp [fitIntercept, h0, hne']

theorem rSquared_degenerate (ts : Timeseries) (hz : ∀ p ∈ trainPoints ts, p.1 = 0) :
    rSquared ts = 0 := by
  by_cases hne : trainPoints ts = []
  · simp [rSquared, hne]
  · have hslope := fitSlope_of_fst_zero _ hz
    have hpredAt : ∀ x : ℚ, predictAt (trainPoints ts) x =
        npMean ((trainPoints ts).map Prod.snd) := by
      intro x
      rw [predictAt, hslope, zero_mul, add_zero, fitIntercept_of_fst_zero _ hz hne,
        npMean, List.length_map]
    have e1 : (trainPoints ts).map (fun p => (p.2 - predictAt (trainPoints ts) p.1) ^ 2)
        = (trainPoints ts).map
            (fun p => (p.2 - npMean ((trainPoints ts).map Prod.snd)) ^ 2) :=
      List.map_congr_left (fun p _ => by rw [hpredAt])
    have e2 : (trainPoints ts).map
          (fun p => (p.2 - npMean ((trainPoints ts).map Prod.snd)) ^ 2)
        = ((trainPoints ts).map Prod.snd).map
            (fun y => (y - npMean ((trainPoints ts).map Prod.snd)) ^ 2) := by
      rw [List.map_map]; rfl
    rw [rSquared]
    simp only [e1, e2]
    by_cases hS : (((trainPoints ts).map Prod.snd).map
        (fun y => (y - npMean ((trainPoints ts).map Prod.snd)) ^ 2)).sum > 0
    · rw [if_pos hS, div_self (ne_of_gt hS)]; ring
    · rw [if_neg hS]

theorem hoursElapsed_replicate (n : ℕ) (c : ℚ) (hn : 0 < n) :
    hoursElapsed (List.replicate n c) = List.replicate n 0 := by
  have hhead : (List.replicate n c).headD 0 = c := by
    cases n with
    | zero => omega
    | succ m => rfl
  rw [hoursElapsed, List.map_replicate, hhead, sub_self, zero_div]

/-- C1 counterexample: for a series of 3 observations all at the same
timestamp, `predict_no2_24h` does not report the absent result. -/
theorem c1_counterexample : predict_no2_24h ⟨[0, 0, 0], [1, 2, 3]⟩ ≠ none := by
  rw [predict_no2_24h, if_neg (by norm_num)]
  exact Option.some_ne_none _

/-- C1 (amended): for a series of `n ≥ 3` observations that all share the
same timestamp and have nonnegative concentrations, `predict_no2_24h` does
not detect the singular fit: sklearn's minimum-norm solution gives slope 0
and intercept equal to the mean, so the call returns a prediction whose
value is the mean of the observations, with R² 0 and confidence "low". -/
theorem c1_amended_degenerate (n : ℕ) (c : ℚ) (vals : List ℚ)
    (hn : 3 ≤ n) (hlen : vals.length = n) (h0 : ∀ v ∈ vals, 0 ≤ v) :
    (predict_no2_24h ⟨List.replicate n c, vals⟩).map
        (fun p => (p.predicted_no2, p.r_squared, p.confidence)) =
      some (npMean vals, 0, "low") := by
  have hvne : vals ≠ [] := by
    intro h; rw [h] at hlen; simp at hlen; omega
  have hx : hoursElapsed (List.replicate n c) = List.replicate n 0 :=
    hoursElapsed_replicate n c (by omega)
  have hpts : trainPoints ⟨List.replicate n c, vals⟩ = (List.replicate n 0).zip vals := by
    rw [trainPoints]
    exact congrArg (·.zip vals) hx
  have hfst0 : ∀ p ∈ trainPoints ⟨List.replicate n c, vals⟩, p.1 = 0 := by
    intro p hp
    rw [hpts] at hp
    have h1 : p.1 ∈ ((List.replicate n 0).zip vals).map Prod.fst :=
      List.mem_map_of_mem _ hp
    rw [List.map_fst_zip _ _ (by simp [hlen])] at h1
    exact List.eq_of_mem_replicate h1
  have hsnd : (trainPoints ⟨List.replicate n c, vals⟩).map Prod.snd = vals := by
    rw [hpts]
    exact List.map_snd_zip _ _ (by simp [hlen])
  have hptsne : trainPoints ⟨List.replicate n c, vals⟩ ≠ [] := by
    intro h
    have := congrArg List.length (h ▸ hsnd)
    simp [hlen] at this
    omega
  have hlenpts : (trainPoints ⟨List.replicate n c, vals⟩).length = n := by
    have := congrArg List.length hsnd
    rw [List.length_map] at this
    rw [this, hlen]
  have hslope := fitSlope_of_fst_zero _ hfst0
  have hmean : fitIntercept (trainPoints ⟨List.replicate n c, vals⟩) = npMean vals := by
    rw [fitIntercept_of_fst_zero _ hfst0 hptsne, hsnd, hlenpts, npMean, hlen]
  have hraw : rawProjection ⟨List.replicate n c, vals⟩ = npMean vals := by
    rw [rawProjection, predictAt, hslope, zero_mul, add_zero, hmean]
  have hclamp : clampProjection ⟨List.replicate n c, vals⟩ (npMean vals) = npMean vals := by
    rw [clampProjection]
    have hmx : npMean vals ≤ npMax vals * 10 := by
      have h1 := npMean_le_npMax hvne
      have h2 := npMax_nonneg hvne h0
      nlinarith
    rw [if_neg (not_lt.mpr hmx), if_neg (not_lt.mpr (npMean_nonneg h0))]
  have hr2 : rSquared ⟨List.replicate n c, vals⟩ = 0 := rSquared_degenerate _ hfst0
  rw [predict_no2_24h, if_neg (by simp; omega)]
  simp only [Option.map_some']
  rw [hraw, hclamp, hr2]
  norm_num [confidenceLabel, roundTo]

theorem c1_amended_degenerate_witness :
    (3 ≤ 3 ∧ [(1 : ℚ), 2, 3].length = 3 ∧ ∀ v ∈ [(1 : ℚ), 2, 3], 0 ≤ v) ∧
    (predict_no2_24h ⟨List.replicate 3 (700 : ℚ), [1, 2, 3]⟩).map
        (fun p => (p.predicted_no2, p.r_squared, p.confidence)) =
      some (npMean [1, 2, 3], 0, "low") :=
  ⟨⟨le_refl 3, by decide, by norm_num⟩,
    c1_amended_degenerate 3 700 [1, 2, 3] (le_refl 3) (by decide) (by norm_num)⟩

theorem getLastD_mem_of_ne_nil {l : List ℚ} (hne : l ≠ []) (d : ℚ) : l.getLastD d ∈ l := by
  rw [List.getLastD_eq_getLast?, List.getLast?_eq_getLast l hne, Option.getD_some]
  exact List.getLast_mem hne

theorem le_getLastD_of_sorted :
    ∀ (l : List ℚ) (d : ℚ), l.Sorted (· ≤ ·) → ∀ t ∈ l, t ≤ l.getLastD d := by
  intro l
  induction l with
  | nil => intro d _ t ht; cases ht
  | cons x xs ih =>
    intro d hs t ht
    obtain ⟨hx, hxs⟩ := List.sorted_cons.mp hs
    rw [List.getLastD_cons]
    rcases List.mem_cons.mp ht with rfl | h
    · cases xs with
      | nil => exact le_refl t
      | cons y ys =>
        exact hx _ (getLastD_mem_of_ne_nil (List.cons_ne_nil y ys) t)
    · exact ih x hxs t h

/-- C9 counterexample: two listings of the same set of observations (one
chronological, one not) yield different forecasts, and on the permuted
listing the prediction time is not 24h after the chronologically latest
observation (7200 s); so `predict_no2_24h` does not sort by timestamp. -/
theorem c9_counterexample :
    ([((7200 : ℚ), (12 : ℚ)), (0, 10), (3600, 11)].Perm
      [((0 : ℚ), (10 : ℚ)), (3600, 11), (7200, 12)]) ∧
    (predict_no2_24h ⟨[0, 3600, 7200], [10, 11, 12]⟩).map Prediction.prediction_time ≠
      (predict_no2_24h ⟨[7200, 0, 3600], [12, 10, 11]⟩).map Prediction.prediction_time ∧
    (predict_no2_24h ⟨[7200, 0, 3600], [12, 10, 11]⟩).map Prediction.prediction_time ≠
      some (7200 + 86400) := by
  refine ⟨by decide, ?_, ?_⟩ <;> norm_num [predict_no2_24h, List.getLastD]

/-- C9 (amended): `predict_no2_24h` does not sort: the 24h projection point
is 24 hours after the last observation as listed (and only for an input
already sorted by timestamp — as `load_tempo_timeseries` produces — is that
the chronologically latest observation). -/
theorem c9_amended_listed_order (ts : Timeseries) (h : 3 ≤ ts.timestamps.length) :
    (predict_no2_24h ts).map Prediction.prediction_time =
      some (ts.timestamps.getLastD 0 + 86400) ∧
    (ts.timestamps.Sorted (· ≤ ·) → ∀ t ∈ ts.timestamps, t ≤ ts.timestamps.getLastD 0) := by
  constructor
  · rw [predict_no2_24h, if_neg (by omega)]
    rfl
  · intro hs t ht
    exact le_getLastD_of_sorted ts.timestamps 0 hs t ht

theorem c9_amended_listed_order_witness :
    3 ≤ (Timeseries.mk [0, 3600, 7200] [10, 11, 12]).timestamps.length ∧
    ((predict_no2_24h ⟨[0, 3600, 7200], [10, 11, 12]⟩).map Prediction.prediction_time =
        some ((Timeseries.mk [0, 3600, 7200] [10, 11, 12]).timestamps.getLastD 0 + 86400) ∧
      ((Timeseries.mk [0, 3600, 7200] [10, 11, 12]).timestamps.Sorted (· ≤ ·) →
        ∀ t ∈ (Timeseries.mk [0, 3600, 7200] [10, 11, 12]).timestamps,
          t ≤ (Timeseries.mk [0, 3600, 7200] [10, 11, 12]).timestamps.getLastD 0)) :=
  ⟨by decide, c9_amended_listed_order _ (by decide)⟩

/-- C10 counterexample: on the spec's end-to-end linear scenario
(hourly observations 1.0e15, 1.1e15, 1.2e15, 1.3e15) the code's 24h
projection is exactly 3.7e15 — the fitted line 1.0e15 + 0.1e15·h evaluated
at h = 27 — not ≈ 1.6e15: it misses 1.6e15 by 2.1e15, seven times the
whole observed range. -/
theorem c10_counterexample :
    (predict_no2_24h ⟨[0, 3600, 7200, 10800],
        [10 * 10 ^ 14, 11 * 10 ^ 14, 12 * 10 ^ 14, 13 * 10 ^ 14]⟩).map
      Prediction.predicted_no2 = some (37 * 10 ^ 14) ∧
    ¬ ((37 * 10 ^ 14 : ℚ) - 16 * 10 ^ 14 ≤ 4 * 10 ^ 14) := by
  constructor
  · norm_num [predict_no2_24h, clampProjection, rawProjection, trainPoints, hoursElapsed,
      predictAt, fitSlope, fitIntercept, npMax, npMean, List.getLastD]
  · norm_num

/-- C10 (amended): the forecaster fits an OLS line over hours elapsed,
evaluates it 24h past the last observation and reports prediction_time
24h after the last timestamp; on the perfectly linear scenario the
predicted concentration is exactly 3.7e15 (not ≈1.6e15), R² is 1 and the
confidence is "high"; in general the confidence label is "high" for
R² > 0.7, "medium" for R² > 0.4 and "low" otherwise. -/
theorem c10_amended_linear_scenario :
    ((predict_no2_24h ⟨[0, 3600, 7200, 10800],
        [10 * 10 ^ 14, 11 * 10 ^ 14, 12 * 10 ^ 14, 13 * 10 ^ 14]⟩).map
      (fun p => (p.predicted_no2, p.r_squared, p.confidence, p.prediction_time)) =
      some (37 * 10 ^ 14, 1, "high", 10800 + 86400)) ∧
    ∀ ts : Timeseries, 3 ≤ ts.timestamps.length →
      (predict_no2_24h ts).map Prediction.confidence =
        some (if rSquared ts > 0.7 then "high"
              else if rSquared ts > 0.4 then "medium" else "low") := by
  constructor
  · norm_num [predict_no2_24h, clampProjection, rawProjection, trainPoints, hoursElapsed,
      predictAt, fitSlope, fitIntercept, npMax, npMean, rSquared, roundTo,
      confidenceLabel, List.getLastD]
  · intro ts h
    rw [predict_no2_24h, if_neg (by omega)]
    rfl

theorem c10_amended_linear_scenario_witness :
    3 ≤ (Timeseries.mk [0, 3600, 7200] [10, 11, 12]).timestamps.length ∧
    (predict_no2_24h ⟨[0, 3600, 7200], [10, 11, 12]⟩).map Prediction.confidence =
      some (if rSquared ⟨[0, 3600, 7200], [10, 11, 12]⟩ > 0.7 then "high"
            else if rSquared ⟨[0, 3600, 7200], [10, 11, 12]⟩ > 0.4 then "medium"
            else "low") :=
  ⟨by decide, c10_amended_linear_scenario.2 _ (by decide)⟩

theorem setEntry_maxsize (c : TTLCacheState K V) (k : K) (v : V) (now : ℚ) :
    (setEntry c k v now).maxsize = c.maxsize := by
  simp only [setEntry, expireEntries]
  split <;> rfl

theorem setEntry_ttl (c : TTLCacheState K V) (k : K) (v : V) (now : ℚ) :
    (setEntry c k v now).ttl = c.ttl := by
  simp only [setEntry, expireEntries]
  split <;> rfl

theorem setEntry_length_le (c : TTLCacheState K V) (k : K) (v : V) (now : ℚ)
    (hcap : 1 ≤ c.maxsize) (hlen : c.entries.length ≤ c.maxsize) :
    (setEntry c k v now).entries.length ≤ c.maxsize := by
  have hesle : (c.entries.filter (fun e => decide (now < e.2.2 + c.ttl))).length ≤
      c.entries.length := List.length_filter_le _ _
  simp only [setEntry, expireEntries]
  split
  · next hany =>
    simp only [List.length_append, List.length_cons, List.length_nil]
    obtain ⟨x, hx, hpx⟩ := List.any_eq_true.mp hany
    have hlt : ((c.entries.filter (fun e => decide (now < e.2.2 + c.ttl))).filter
        (fun e => decide (e.1 ≠ k))).length <
        (c.entries.filter (fun e => decide (now < e.2.2 + c.ttl))).length :=
      List.length_filter_lt_length_iff_exists.mpr ⟨x, hx, by simpa using of_decide_eq_true hpx⟩
    omega
  · next hany =>
    simp only [List.length_append, List.length_cons, List.length_nil, List.length_drop]
    omega

theorem applySets_maxsize (ops : List (K × V × ℚ)) :
    ∀ c : TTLCacheState K V, (applySets c ops).maxsize = c.maxsize := by
  induction ops with
  | nil => intro c; rfl
  | cons op ops ih =>
    intro c
    rw [applySets, ih, setEntry_maxsize]

theorem applySets_ttl (ops : List (K × V × ℚ)) :
    ∀ c : TTLCacheState K V, (applySets c ops).ttl = c.ttl := by
  induction ops with
  | nil => intro c; rfl
  | cons op ops ih =>
    intro c
    rw [applySets, ih, setEntry_ttl]

theorem applySets_append (c : TTLCacheState K V) (l1 l2 : List (K × V × ℚ)) :
    applySets c (l1 ++ l2) = applySets (applySets c l1) l2 := by
  induction l1 generalizing c with
  | nil => rfl
  | cons op ops ih => rw [List.cons_append, applySets, applySets, ih]

theorem applySets_length_le (ops : List (K × V × ℚ)) :
    ∀ c : TTLCacheState K V, 1 ≤ c.maxsize → c.entries.length ≤ c.maxsize →
      (applySets c ops).entries.length ≤ c.maxsize := by
  induction ops with
  | nil => intro c _ hlen; exact hlen
  | cons op ops ih =>
    intro c hcap hlen
    rw [applySets]
    have h2 : (setEntry c op.1 op.2.1 op.2.2).entries.length ≤
        (setEntry c op.1 op.2.1 op.2.2).maxsize := by
      rw [setEntry_maxsize]
      exact setEntry_length_le c op.1 op.2.1 op.2.2 hcap hlen
    have h1 := ih (setEntry c op.1 op.2.1 op.2.2) (by rw [setEntry_maxsize]; exact hcap) h2
    rwa [setEntry_maxsize] at h1

theorem setEntry_fresh (S : TTLCacheState K V) (k : K) (v : V) (now : ℚ)
    (httl : 0 < S.ttl) (hT : ∀ e ∈ S.entries, e.2.2 = now)
    (hk : ∀ e ∈ S.entries, e.1 ≠ k) :
    (setEntry S k v now).entries =
      S.entries.drop (S.entries.length + 1 - S.maxsize) ++ [(k, v, now)] := by
  have hfil : S.entries.filter (fun e => decide (now < e.2.2 + S.ttl)) = S.entries :=
    List.filter_eq_self.mpr (fun e he => by
      rw [hT e he]
      simpa using (by linarith : now < now + S.ttl))
  have hany : S.entries.any (fun e => decide (e.1 = k)) = false :=
    List.any_eq_false.mpr (fun e he => by simp [hk e he])
  unfold setEntry expireEntries
  simp only [hfil, hany, Bool.false_eq_true, if_false]

theorem applySets_fresh_distinct (m : ℕ) (ttl T : ℚ) (httl : 0 < ttl) (hm : 1 ≤ m) :
    ∀ ops : List (K × V × ℚ), (ops.map (fun e => e.1)).Nodup →
      (∀ e ∈ ops, e.2.2 = T) →
      (applySets (TTLCacheState.empty m ttl) ops).entries = ops.drop (ops.length - m) := by
  intro ops
  induction ops using List.reverseRecOn with
  | nil => intro _ _; simp [applySets, TTLCacheState.empty]
  | append_singleton ops o ih =>
    intro hnd hT
    rw [List.map_append] at hnd
    obtain ⟨hnd1, -, hdisj⟩ := List.nodup_append.mp hnd
    have hT1 : ∀ e ∈ ops, e.2.2 = T := fun e he => hT e (List.mem_append_left _ he)
    have ho : o.2.2 = T := hT o (List.mem_append_right _ (List.mem_singleton_self o))
    have hE := ih hnd1 hT1
    have hmax : (applySets (TTLCacheState.empty m ttl) ops : TTLCacheState K V).maxsize = m :=
      applySets_maxsize ops _
    have httlS : (applySets (TTLCacheState.empty m ttl) ops : TTLCacheState K V).ttl = ttl :=
      applySets_ttl ops _
    rw [applySets_append, applySets, applySets]
    rw [setEntry_fresh _ _ _ _ (by rw [httlS]; exact httl)
      (fun e he => by
        rw [hE] at he
        rw [hT1 e (List.mem_of_mem_drop he), ho])
      (fun e he => by
        rw [hE] at he
        have hmem : e.1 ∈ ops.map (fun e => e.1) :=
          List.mem_map_of_mem _ (List.mem_of_mem_drop he)
        intro hek
        exact (hdisj hmem) (by simp [hek]))]
    rw [hE, hmax, List.length_drop, List.drop_drop]
    rw [show ops.length - m + (ops.length - (ops.length - m) + 1 - m) =
        ops.length + 1 - m from by omega]
    rw [List.length_append, List.length_cons, List.length_nil,
      List.drop_append_of_le_length (by omega)]

/-- C7: the cache never exceeds its configured capacity under any sequence
of `set` operations, and inserting `maxsize + 1` distinct fresh keys into
an empty cache leaves exactly `maxsize` entries, with the earliest-inserted
entry the one evicted. -/
theorem c7_capacity_bound :
    (∀ (c : TTLCacheState K V) (ops : List (K × V × ℚ)), 1 ≤ c.maxsize →
      c.entries.length ≤ c.maxsize → (applySets c ops).entries.length ≤ c.maxsize) ∧
    (∀ (m : ℕ) (ttl T : ℚ) (ops : List (K × V × ℚ)), 0 < ttl → 1 ≤ m →
      (ops.map (fun e => e.1)).Nodup → (∀ e ∈ ops, e.2.2 = T) → ops.length = m + 1 →
      (applySets (TTLCacheState.empty m ttl) ops).entries = ops.drop 1 ∧
        (applySets (TTLCacheState.empty m ttl) ops).entries.length = m) := by
  constructor
  · intro c ops hcap hlen
    exact applySets_length_le ops c hcap hlen
  · intro m ttl T ops httl hm hnd hT hlen
    have h := applySets_fresh_distinct m ttl T httl hm ops hnd hT
    rw [hlen] at h
    have h1 : m + 1 - m = 1 := by omega
    rw [h1] at h
    refine ⟨h, ?_⟩
    rw [h, List.length_drop, hlen]
    omega

theorem c7_capacity_bound_witness :
    (1 ≤ (TTLCacheState.empty 2 9 : TTLCacheState ℕ ℕ).maxsize ∧
      (TTLCacheState.empty 2 9 : TTLCacheState ℕ ℕ).entries.length ≤ 2 ∧
      (0 : ℚ) < 9 ∧ ([(10, 1, (0 : ℚ)), (20, 2, 0), (30, 3, 0)].map
        (fun e : ℕ × ℕ × ℚ => e.1)).Nodup ∧
      [(10, 1, (0 : ℚ)), (20, 2, 0), (30, 3, 0)].length = 2 + 1) ∧
    (applySets (TTLCacheState.empty 2 9 : TTLCacheState ℕ ℕ)
        [(10, 1, 0), (20, 2, 0), (30, 3, 0)]).entries.length ≤ 2 ∧
    ((applySets (TTLCacheState.empty 2 9 : TTLCacheState ℕ ℕ)
        [(10, 1, 0), (20, 2, 0), (30, 3, 0)]).entries =
      [(10, 1, (0 : ℚ)), (20, 2, 0), (30, 3, 0)].drop 1 ∧
      (applySets (TTLCacheState.empty 2 9 : TTLCacheState ℕ ℕ)
        [(10, 1, 0), (20, 2, 0), (30, 3, 0)]).entries.length = 2) :=
  ⟨⟨by decide, by decide, by norm_num, by decide, by decide⟩,
    c7_capacity_bound.1 _ _ (by decide) (by decide),
    c7_capacity_bound.2 2 9 0 _ (by norm_num) (by decide) (by decide)
      (by intro e he; fin_cases he <;> rfl) (by decide)⟩

end Lighthouse
